import Mathlib

/-!
Verification of the message-campaign feature-engineering pipeline.

The development shallowly embeds the pandas code of the repository:

* `src/features/engagement_features.py` — lagged indicators, per-client rolling
  rates, Bayesian smoothing, campaign expanding means, expectation gaps;
* `src/features/global_campaign_performance_features.py` — hourly bucket grid,
  rolling bucket rates, backward as-of join;
* `src/features/clients_expectation_deviation_features.py` — client-vs-global
  relative deviation with the zero-denominator guard;
* `src/features/spam_related_features.py` — company-wide rolling outcome rates
  and the composite delivery/spam-risk indices;
* `src/feature_engineering.py` and `src/preprocess_for_fe.py` — the pipeline
  orchestrator and the cleaning step.

Timestamps are modelled as integers counting minutes (pandas timestamps are
themselves discrete); durations translate as 1 hour = 60, 1 day = 1440,
7 days = 10080, 30 days = 43200.  Rates live in `ℚ`; a pandas `NaN` cell is
`Option.none` and pandas aggregation functions that skip `NaN` inputs are
modelled by dropping `none` before aggregating.  Pandas time-based rolling
windows with `closed='left'` select, for the event at time `t`, exactly the
events of the group whose time lies in the half-open interval `[t - w, t)`;
the index order inside every client partition is increasing in `sent_at`
(`prepare_data` sorts by `(client_id, sent_at)` and the later global sorts by
`sent_at` keep every within-client subsequence time-ordered).
-/

namespace Campaign

/-- Numeric value of a boolean outcome flag, as pandas sees a `bool` column. -/
def qOf (b : Bool) : ℚ := if b then 1 else 0

/-- Arithmetic mean of a list of rationals (`sum / len`, the pandas `mean`). -/
def mean (l : List ℚ) : ℚ := l.sum / (l.length : ℚ)

/-- One event of a single client partition, carrying `sent_at` (in minutes) and
one engagement metric (`is_opened` / `is_clicked` / `is_purchased`). -/
structure Ev where
  t : ℤ
  flag : Bool
deriving DecidableEq, Repr

/-- Embeds `df.groupby('client_id')[col].shift(1)` restricted to one client
partition (`create_lagged_engagement_features`): entry `i` of the `{col}_prev`
column is the flag of the partition's event `i - 1`, `none` at the first
event. -/
def prevAt (evs : List Ev) (i : ℕ) : Option Bool :=
  if i = 0 then none else (evs.get? (i - 1)).map (·.flag)

/-- Membership test of event `j` in the `closed='left'` time window of width
`w` ending at time `t` (the window `[t - w, t)` of the current event). -/
def inWindow (evs : List Ev) (t w : ℤ) (j : ℕ) : Bool :=
  match evs.get? j with
  | some ej => decide (t - w ≤ ej.t) && decide (ej.t < t)
  | none => false

/-- Non-`NaN` values of the lagged column over the events of the
`closed='left'` window `[t - w, t)` of one client partition (the collection
the rolling mean of `create_rolling_engagement_rates` averages). -/
def rollVals (w : ℤ) (evs : List Ev) (t : ℤ) : List ℚ :=
  ((List.range evs.length).filter (inWindow evs t w)).filterMap
    (fun j => (prevAt evs j).map qOf)

/-- The value `df_indexed.groupby('client_id')[prev_col].rolling(days,
closed='left').mean()` of `create_rolling_engagement_rates` computes for
position `i` of one client partition: the mean of the lagged column over the
partition's events in `[t_i - w, t_i)`, pandas-style skipping `NaN` entries of
the lagged column, and `NaN` when no non-`NaN` entry is in the window.  This
is the group-internal computation only: the source then concatenates the
per-group results group-major and assigns them positionally (`.values`) onto
the frame — the attached column is `attachedRate` below, which on a
time-sorted multi-client frame does not agree with this value row by row. -/
def rollingPrevMean (w : ℤ) (evs : List Ev) (i : ℕ) : Option ℚ :=
  match evs.get? i with
  | none => none
  | some e =>
    if (rollVals w evs e.t).isEmpty then none else some (mean (rollVals w evs e.t))

/-- Indices of the window events that have a predecessor in the partition
(window events other than the partition's first event).  Written from the
amended claim wording. -/
def predIdx (w : ℤ) (evs : List Ev) (t : ℤ) : List ℕ :=
  (List.range evs.length).filter (fun j => decide (1 ≤ j) && inWindow evs t w j)

/-- Outcome of the predecessor of event `j` in the partition.  Written from
the amended claim wording. -/
def predVal (evs : List Ev) (j : ℕ) : ℚ :=
  qOf (((evs.get? (j - 1)).map (·.flag)).getD false)

/-- Restates the amended reading of the rolling rate: the mean, over the
window's events that have a predecessor in the partition, of the outcome of
that predecessor (the window mean of the lagged column, in terms of raw
outcomes).  Written from the amended claim wording, to be proved equal to
`rollingPrevMean`. -/
def predRate (w : ℤ) (evs : List Ev) (i : ℕ) : Option ℚ :=
  match evs.get? i with
  | none => none
  | some e =>
    if (predIdx w evs e.t).isEmpty then none
    else some (mean ((predIdx w evs e.t).map (predVal evs)))

/-- Embeds `groupby(...)[metric].transform(lambda x: x.shift(1).expanding()
.mean())` of `create_campaign_quality_features`, restricted to one group: the
value at group position `i` is the mean of the metric over positions
`0 .. i-1`, `NaN` at position `0`. -/
def expandingPrevMean (l : List Bool) (i : ℕ) : Option ℚ :=
  if i = 0 then none else some (mean ((l.take i).map qOf))

/-- One row of the full table, carrying the grouping key `client_id`,
`sent_at` and one engagement metric, for the features that read the whole
dataset (`create_bayesian_smoothed_rates`). -/
structure Msg where
  client : ℕ
  t : ℤ
  flag : Bool
deriving DecidableEq, Repr

/-- Embeds `df[metric].mean()`: the metric's global mean rate over the entire
dataset. -/
def globalRate (rows : List Msg) : ℚ := mean (rows.map (fun r => qOf r.flag))

/-- Embeds `bayesian_shrinkage` of `engagement_features.py`:
`(successes + alpha * global_mean) / (trials + alpha + beta)`. -/
def bayesianShrinkage (successes trials globalMean alpha beta : ℚ) : ℚ :=
  (successes + alpha * globalMean) / (trials + alpha + beta)

/-- Embeds the per-row value of `{metric}_rate_prev_smooth` produced by
`create_bayesian_smoothed_rates`: within row `i`'s client group the shifted
cumulative sum of the metric (`cumsum().shift(1).fillna(0)`) is the sum of the
metric over the same-client rows strictly before `i`, the trial count is
`arange(len(group))`, i.e. the number of such rows, and the global mean is
taken over the whole dataset. -/
def smoothAt (alpha beta : ℚ) (rows : List Msg) (i : ℕ) : Option ℚ :=
  match rows.get? i with
  | none => none
  | some r =>
    let hist := (rows.take i).filter (fun x => x.client == r.client)
    some (bayesianShrinkage ((hist.map (fun x => qOf x.flag)).sum) (hist.length : ℚ)
      (globalRate rows) alpha beta)

/-! Helper lemmas shared by several claims. -/

theorem filterMap_eq_map_filter {α β : Type} (f : α → Option β) (q : α → Bool) (g : α → β) :
    ∀ L : List α, (∀ j ∈ L, f j = if q j then some (g j) else none) →
      L.filterMap f = (L.filter q).map g := by
  intro L
  induction L with
  | nil => intro _; simp
  | cons a L ih =>
    intro h
    have ha := h a (List.mem_cons_self a L)
    have hL : ∀ j ∈ L, f j = if q j then some (g j) else none :=
      fun j hj => h j (List.mem_cons_of_mem a hj)
    by_cases hq : q a = true
    · rw [List.filterMap_cons, List.filter_cons, ha, if_pos hq, hq]
      simp only [ite_true, List.map_cons, ih hL]
    · have hq' : q a = false := by
        cases hqa : q a
        · rfl
        · exact absurd hqa hq
      rw [List.filterMap_cons, List.filter_cons, ha, if_neg hq, hq']
      simp only [Bool.false_eq_true, ite_false, ih hL]

theorem mean_bounds (l : List ℚ) (h : ∀ x ∈ l, 0 ≤ x ∧ x ≤ 1) (hne : l ≠ []) :
    0 ≤ mean l ∧ mean l ≤ 1 := by
  have hlen : 0 < (l.length : ℚ) := by
    have : 0 < l.length := List.length_pos.mpr hne
    exact_mod_cast this
  constructor
  · exact div_nonneg (List.sum_nonneg (fun x hx => (h x hx).1)) (le_of_lt hlen)
  · rw [mean, div_le_one hlen]
    calc l.sum ≤ l.length • (1 : ℚ) := List.sum_le_card_nsmul l 1 (fun x hx => (h x hx).2)
    _ = (l.length : ℚ) := by simp

theorem mean_of_zeros (l : List ℚ) (h : ∀ x ∈ l, x = 0) : mean l = 0 := by
  unfold mean
  rw [List.sum_eq_zero h, zero_div]

theorem rollVals_eq_predVals (w : ℤ) (evs : List Ev) (t : ℤ) :
    rollVals w evs t = (predIdx w evs t).map (predVal evs) := by
  unfold rollVals predIdx
  rw [← List.filter_filter (inWindow evs t w) (List.range evs.length)]
  apply filterMap_eq_map_filter
  intro j hj
  have hjlen : j < evs.length := List.mem_range.mp (List.mem_of_mem_filter hj)
  match j with
  | 0 => simp [prevAt]
  | k + 1 =>
    have hk : k < evs.length := Nat.lt_of_succ_lt hjlen
    obtain ⟨x, hx⟩ : ∃ x, evs.get? k = some x := by
      rw [List.get?_eq_get hk]; exact ⟨_, rfl⟩
    have hx' : evs[k]? = some x := by rw [← List.get?_eq_getElem?]; exact hx
    simp [prevAt, predVal, hx, hx']

theorem rollingPrevMean_eq_predRate (w : ℤ) (evs : List Ev) (i : ℕ) :
    rollingPrevMean w evs i = predRate w evs i := by
  unfold rollingPrevMean predRate
  cases hgi : evs.get? i with
  | none => rfl
  | some e =>
    dsimp only
    rw [rollVals_eq_predVals]
    cases predIdx w evs e.t with
    | nil => simp
    | cons a l => simp

/-- The spec scenario of claim C2: one client, messages at Day 0
(opened = true), Day 3 (opened = false), Day 10 (opened = true); times in
minutes. -/
def scenarioC2 : List Ev := [⟨0, true⟩, ⟨4320, false⟩, ⟨14400, true⟩]

theorem scenarioC2_vals : rollVals 10080 scenarioC2 14400 = [1] := by
  have hfil : (List.range scenarioC2.length).filter (inWindow scenarioC2 14400 10080)
      = [1] := by decide
  have hp : prevAt scenarioC2 1 = some true := by decide
  rw [rollVals, hfil]
  simp [hp, qOf]

theorem scenarioC2_rate : rollingPrevMean 10080 scenarioC2 2 = some 1 := by
  have hget : scenarioC2.get? 2 = some ⟨14400, true⟩ := rfl
  rw [rollingPrevMean, hget]
  dsimp only
  rw [scenarioC2_vals]
  norm_num [mean]

theorem scenarioC2_prev : prevAt scenarioC2 2 = some false := by decide

/-- Events of client `c` in frame order — one group of
`df.groupby('client_id')` at the engagement stage. -/
def partitionEv (rows : List Msg) (c : ℕ) : List Ev :=
  (rows.filter (fun r => r.client == c)).map (fun r => ⟨r.t, r.flag⟩)

/-- The distinct clients of the frame in ascending order — the group order of
pandas `groupby` (`sort=True`). -/
def sortedClients (rows : List Msg) : List ℕ :=
  List.insertionSort (fun a b => a ≤ b) ((rows.map (fun r => r.client)).dedup)

/-- The value array produced by
`groupby('client_id')[prev_col].rolling(days, closed='left').mean()` after
`reset_index(level=0, drop=True)`: the per-client rolling results concatenated
group-major (clients ascending, frame order within each client). -/
def groupMajorRates (w : ℤ) (rows : List Msg) : List (Option ℚ) :=
  (sortedClients rows).flatMap (fun c =>
    (List.range (partitionEv rows c).length).map (fun k =>
      rollingPrevMean w (partitionEv rows c) k))

/-- Embeds the attached `{metric}_rate_{period}` column of
`create_rolling_engagement_rates`: the group-major array is assigned
positionally (`df[col] = rolling_result.values`), so frame row `i` receives
entry `i` of `groupMajorRates` — on a time-sorted frame with interleaved
clients this misaligns window means across rows. -/
def attachedRate (w : ℤ) (rows : List Msg) (i : ℕ) : Option ℚ :=
  ((groupMajorRates w rows).get? i).getD none

theorem dedup_replicate_of_ne_zero (c n : ℕ) (h : n ≠ 0) :
    (List.replicate n c).dedup = [c] := by
  induction n with
  | zero => exact absurd rfl h
  | succ m ih =>
    rcases Nat.eq_zero_or_pos m with hm | hm
    · subst hm
      rw [List.replicate_one, List.dedup_cons_of_not_mem (List.not_mem_nil c)]
      rfl
    · rw [List.replicate_succ, List.dedup_cons_of_mem (by
        rw [List.mem_replicate]
        exact ⟨Nat.pos_iff_ne_zero.mp hm, rfl⟩)]
      exact ih (Nat.pos_iff_ne_zero.mp hm)

theorem sortedClients_single (rows : List Msg) (c : ℕ) (hne : rows ≠ [])
    (hc : ∀ r ∈ rows, r.client = c) : sortedClients rows = [c] := by
  unfold sortedClients
  have hmap : rows.map (fun r => r.client) = List.replicate rows.length c := by
    rw [List.eq_replicate]
    refine ⟨List.length_map rows _, fun b hb => ?_⟩
    obtain ⟨r, hr, hrb⟩ := List.mem_map.mp hb
    rw [← hrb]
    exact hc r hr
  rw [hmap, dedup_replicate_of_ne_zero c rows.length
    (fun h0 => hne (List.length_eq_zero.mp h0))]
  rfl

theorem attachedRate_single_client (w : ℤ) (rows : List Msg) (c : ℕ)
    (hne : rows ≠ []) (hc : ∀ r ∈ rows, r.client = c) (i : ℕ) :
    attachedRate w rows i = rollingPrevMean w (partitionEv rows c) i := by
  unfold attachedRate groupMajorRates
  rw [sortedClients_single rows c hne hc, List.flatMap_cons, List.flatMap_nil,
    List.append_nil]
  by_cases hi : i < (partitionEv rows c).length
  · rw [List.get?_map, List.get?_range hi]
    rfl
  · push_neg at hi
    have h1 : ((List.range (partitionEv rows c).length).map
        (fun k => rollingPrevMean w (partitionEv rows c) k)).get? i = none :=
      List.get?_eq_none.mpr (by simpa using hi)
    have h2 : (partitionEv rows c).get? i = none := List.get?_eq_none.mpr hi
    rw [h1, rollingPrevMean, h2]
    rfl

/-- The spec scenario as a one-client frame (client 7). -/
def scenarioMsgs : List Msg := [⟨7, 0, true⟩, ⟨7, 4320, false⟩, ⟨7, 14400, true⟩]

theorem scenarioMsgs_attached : attachedRate 10080 scenarioMsgs 2 = some 1 := by
  rw [attachedRate_single_client 10080 scenarioMsgs 7 (by decide) (by decide) 2,
    show partitionEv scenarioMsgs 7 = scenarioC2 from by decide]
  exact scenarioC2_rate

/-- A time-sorted frame with interleaved clients exhibiting the positional
misalignment of `create_rolling_engagement_rates`: client 2 at Day 0 and
Day 1, client 1 at Day 2 (opened), Day 2.5 (not opened) and Day 3.  The
group-major array places client 1's Day-3 window mean (1.0) at array position
2, which positional assignment attaches to client 1's first event. -/
def exMis : List Msg :=
  [⟨2, 0, false⟩, ⟨2, 1440, false⟩, ⟨1, 2880, true⟩, ⟨1, 3600, false⟩, ⟨1, 4320, true⟩]

/-- Mutation of `exMis`: client 1's first event (partition index 0) has its
outcome flag flipped. -/
def exMisMut : List Msg :=
  [⟨2, 0, false⟩, ⟨2, 1440, false⟩, ⟨1, 2880, false⟩, ⟨1, 3600, false⟩, ⟨1, 4320, true⟩]

/-- Client 1's partition of `exMis`. -/
def exMisPartA : List Ev := [⟨2880, true⟩, ⟨3600, false⟩, ⟨4320, true⟩]

/-- Client 1's partition of `exMisMut`. -/
def exMisMutPartA : List Ev := [⟨2880, false⟩, ⟨3600, false⟩, ⟨4320, true⟩]

/-- Client 2's partition of `exMis` (and of `exMisMut`). -/
def exMisPartB : List Ev := [⟨0, false⟩, ⟨1440, false⟩]

theorem exMisPartA_vals : rollVals 10080 exMisPartA 4320 = [1] := by
  have hfil : (List.range exMisPartA.length).filter (inWindow exMisPartA 4320 10080)
      = [0, 1] := by decide
  have hp0 : prevAt exMisPartA 0 = none := by decide
  have hp1 : prevAt exMisPartA 1 = some true := by decide
  rw [rollVals, hfil]
  simp [hp0, hp1, qOf]

theorem exMisPartA_rate2 : rollingPrevMean 10080 exMisPartA 2 = some 1 := by
  have hget : exMisPartA.get? 2 = some ⟨4320, true⟩ := rfl
  rw [rollingPrevMean, hget]
  dsimp only
  rw [exMisPartA_vals]
  norm_num [mean]

theorem exMisMutPartA_vals : rollVals 10080 exMisMutPartA 4320 = [0] := by
  have hfil : (List.range exMisMutPartA.length).filter (inWindow exMisMutPartA 4320 10080)
      = [0, 1] := by decide
  have hp0 : prevAt exMisMutPartA 0 = none := by decide
  have hp1 : prevAt exMisMutPartA 1 = some false := by decide
  rw [rollVals, hfil]
  simp [hp0, hp1, qOf]

theorem exMisMutPartA_rate2 : rollingPrevMean 10080 exMisMutPartA 2 = some 0 := by
  have hget : exMisMutPartA.get? 2 = some ⟨4320, true⟩ := rfl
  rw [rollingPrevMean, hget]
  dsimp only
  rw [exMisMutPartA_vals]
  norm_num [mean]

theorem exMisPartB_rate1 : rollingPrevMean 10080 exMisPartB 1 = none := rfl

theorem exMis_parts :
    sortedClients exMis = [1, 2] ∧ partitionEv exMis 1 = exMisPartA
    ∧ partitionEv exMis 2 = exMisPartB := by decide

theorem exMisMut_parts :
    sortedClients exMisMut = [1, 2] ∧ partitionEv exMisMut 1 = exMisMutPartA
    ∧ partitionEv exMisMut 2 = exMisPartB := by decide

theorem groupMajor_exMis :
    groupMajorRates 10080 exMis
      = [rollingPrevMean 10080 exMisPartA 0, rollingPrevMean 10080 exMisPartA 1,
         rollingPrevMean 10080 exMisPartA 2, rollingPrevMean 10080 exMisPartB 0,
         rollingPrevMean 10080 exMisPartB 1] := by
  unfold groupMajorRates
  rw [exMis_parts.1, List.flatMap_cons, List.flatMap_cons, List.flatMap_nil,
    List.append_nil, exMis_parts.2.1, exMis_parts.2.2]
  rfl

theorem groupMajor_exMisMut :
    groupMajorRates 10080 exMisMut
      = [rollingPrevMean 10080 exMisMutPartA 0, rollingPrevMean 10080 exMisMutPartA 1,
         rollingPrevMean 10080 exMisMutPartA 2, rollingPrevMean 10080 exMisPartB 0,
         rollingPrevMean 10080 exMisPartB 1] := by
  unfold groupMajorRates
  rw [exMisMut_parts.1, List.flatMap_cons, List.flatMap_cons, List.flatMap_nil,
    List.append_nil, exMisMut_parts.2.1, exMisMut_parts.2.2]
  rfl

theorem exMis_attached_first : attachedRate 10080 exMis 2 = some 1 := by
  rw [attachedRate, groupMajor_exMis]
  dsimp only [List.get?]
  rw [Option.getD_some]
  exact exMisPartA_rate2

theorem exMis_attached_last : attachedRate 10080 exMis 4 = none := by
  rw [attachedRate, groupMajor_exMis]
  dsimp only [List.get?]
  rw [Option.getD_some]
  exact exMisPartB_rate1

theorem exMisMut_attached_first : attachedRate 10080 exMisMut 2 = some 0 := by
  rw [attachedRate, groupMajor_exMisMut]
  dsimp only [List.get?]
  rw [Option.getD_some]
  exact exMisMutPartA_rate2

/-- One cell of a per-client rolling configuration of
`create_rolling_features`: `sent_at` and the source-column value (`none` for a
`NaN` cell). -/
def aggWinVals (w : ℤ) (evs : List (ℤ × Option ℚ)) (t : ℤ) : List ℚ :=
  (evs.filter (fun x => decide (t - w ≤ x.1) && decide (x.1 < t))).filterMap (fun x => x.2)

/-- Embeds `rolling(days, closed='left').count()` of `create_rolling_features`
within one client partition: the number of non-`NaN` source values in the
window, `NaN` when there are none (offset windows default to
`min_periods=1`). -/
def rollingCountAgg (w : ℤ) (evs : List (ℤ × Option ℚ)) (i : ℕ) : Option ℚ :=
  match evs.get? i with
  | none => none
  | some e =>
    if (aggWinVals w evs e.1).isEmpty then none
    else some ((aggWinVals w evs e.1).length : ℚ)

/-- Embeds `rolling(days, closed='left').sum()` of `create_rolling_features`
within one client partition. -/
def rollingSumAgg (w : ℤ) (evs : List (ℤ × Option ℚ)) (i : ℕ) : Option ℚ :=
  match evs.get? i with
  | none => none
  | some e =>
    if (aggWinVals w evs e.1).isEmpty then none
    else some ((aggWinVals w evs e.1).sum)

/-- Embeds `rolling(days, closed='left').mean()` of `create_rolling_features`
within one client partition. -/
def rollingMeanAgg (w : ℤ) (evs : List (ℤ × Option ℚ)) (i : ℕ) : Option ℚ :=
  match evs.get? i with
  | none => none
  | some e =>
    if (aggWinVals w evs e.1).isEmpty then none
    else some (mean (aggWinVals w evs e.1))

theorem agg_empty_window (w : ℤ) (evs : List (ℤ × Option ℚ)) (i : ℕ)
    (e : ℤ × Option ℚ) (hget : evs.get? i = some e)
    (hwin : ∀ x ∈ evs, ¬(e.1 - w ≤ x.1 ∧ x.1 < e.1)) :
    rollingCountAgg w evs i = none ∧ rollingSumAgg w evs i = none
      ∧ rollingMeanAgg w evs i = none := by
  have hfil : evs.filter (fun x => decide (e.1 - w ≤ x.1) && decide (x.1 < e.1)) = [] := by
    rw [List.filter_eq_nil]
    intro x hx htrue
    simp only [Bool.and_eq_true, decide_eq_true_eq] at htrue
    exact hwin x hx htrue
  have hv : aggWinVals w evs e.1 = [] := by rw [aggWinVals, hfil]; rfl
  refine ⟨?_, ?_, ?_⟩
  · rw [rollingCountAgg, hget]
    dsimp only
    rw [hv]
    rfl
  · rw [rollingSumAgg, hget]
    dsimp only
    rw [hv]
    rfl
  · rw [rollingMeanAgg, hget]
    dsimp only
    rw [hv]
    rfl

/-- C2 counterexample: in the spec scenario (one client, Day 0 opened,
Day 3 not opened, Day 10 opened) the attached `is_opened_rate_1w` at Day 10 is
`1.0`, not the `0.0` the claim states: the rolling mean is taken over the
lagged column, and the only window event (Day 3) carries Day 0's outcome
`true` (on this one-client frame the positional assignment is aligned, so the
attached value is the partition window mean). -/
theorem rolling_rate_scenario_refuted :
    attachedRate 10080 scenarioMsgs 2 = some 1
    ∧ rollingPrevMean 10080 scenarioC2 2 = some 1
    ∧ ¬ attachedRate 10080 scenarioMsgs 2 = some 0 := by
  refine ⟨scenarioMsgs_attached, scenarioC2_rate, ?_⟩
  rw [scenarioMsgs_attached]
  intro h
  have : (1 : ℚ) = 0 := Option.some.inj h
  norm_num at this

/-- C2 (amended): within each client partition the groupby-rolling of
`create_rolling_engagement_rates` computes, at partition position `i`, the
mean of the lagged column over the window's events that have a predecessor —
the predecessors' outcomes (`rollingPrevMean = predRate`); the resulting
group-major array is then assigned positionally onto the frame
(`attachedRate`).  On a one-client frame the attached value at every row
equals that partition computation, so in the spec scenario the attached
`is_opened_rate_1w` at Day 10 is `1.0` and `is_opened_prev` at Day 10 is
`false`; but on a time-sorted frame with interleaved clients the attachment
misaligns: in `exMis` client 1's first event is attached `1.0` (client 1's
Day-3 window mean) and its last event is attached null. -/
theorem rolling_rate_semantics :
    (∀ (w : ℤ) (evs : List Ev) (i : ℕ), rollingPrevMean w evs i = predRate w evs i)
    ∧ (∀ (w : ℤ) (rows : List Msg) (c : ℕ), rows ≠ [] → (∀ r ∈ rows, r.client = c) →
        ∀ i : ℕ, attachedRate w rows i = rollingPrevMean w (partitionEv rows c) i)
    ∧ (attachedRate 10080 scenarioMsgs 2 = some 1 ∧ prevAt scenarioC2 2 = some false)
    ∧ (attachedRate 10080 exMis 2 = some 1 ∧ attachedRate 10080 exMis 4 = none) :=
  ⟨rollingPrevMean_eq_predRate, attachedRate_single_client,
   ⟨scenarioMsgs_attached, scenarioC2_prev⟩,
   ⟨exMis_attached_first, exMis_attached_last⟩⟩

/-- Witness for `rolling_rate_semantics` at a concrete input: the one-client
scenario frame is aligned. -/
theorem rolling_rate_semantics_witness :
    attachedRate 10080 scenarioMsgs 2 = rollingPrevMean 10080 (partitionEv scenarioMsgs 7) 2 :=
  rolling_rate_semantics.2.1 10080 scenarioMsgs 7 (by decide) (by decide) 2

/-- Concrete dataset refuting the zero-history limit of claim C3: two clients,
one message each; the global `is_opened` rate is `1/2`. -/
def exC3 : List Msg := [⟨1, 0, true⟩, ⟨2, 60, false⟩]

theorem smoothAt_first_event (alpha beta : ℚ) (rows : List Msg) (i : ℕ) (r : Msg)
    (hget : rows.get? i = some r)
    (hfirst : (rows.take i).filter (fun x => x.client == r.client) = []) :
    smoothAt alpha beta rows i = some (alpha * globalRate rows / (alpha + beta)) := by
  rw [smoothAt, hget]
  dsimp only
  rw [hfirst]
  simp [bayesianShrinkage]

theorem exC3_globalRate : globalRate exC3 = 1 / 2 := by
  norm_num [globalRate, exC3, mean, qOf]

theorem exC3_smooth : smoothAt 1 1 exC3 1 = some (1 / 4) := by
  have h := smoothAt_first_event 1 1 exC3 1 ⟨2, 60, false⟩ rfl (by decide)
  rw [h, exC3_globalRate]
  norm_num

/-- C3 counterexample: at a client's first event (zero prior trials) the code
computes `(0 + alpha * global_rate) / (0 + alpha + beta) = global_rate / 2`
with the default `alpha = beta = 1`, not the claimed `global_rate`: on `exC3`
the global rate is `1/2` but the smoothed rate at client 2's first event is
`1/4`. -/
theorem zero_history_smoothing_refuted :
    globalRate exC3 = 1 / 2
    ∧ smoothAt 1 1 exC3 1 = some (1 / 4)
    ∧ ¬ smoothAt 1 1 exC3 1 = some (globalRate exC3) := by
  refine ⟨exC3_globalRate, exC3_smooth, ?_⟩
  rw [exC3_smooth, exC3_globalRate]
  intro h
  have : (1 : ℚ) / 4 = 1 / 2 := Option.some.inj h
  norm_num at this

theorem shrinkage_zero_history (g a b : ℚ) :
    bayesianShrinkage 0 0 g a b = a * g / (a + b) := by
  rw [bayesianShrinkage, zero_add, zero_add]

theorem shrinkage_convergence (s n g : ℚ) (hn : 0 < n) (hs0 : 0 ≤ s) (hsn : s ≤ n)
    (hg0 : 0 ≤ g) (hg1 : g ≤ 1) :
    |bayesianShrinkage s n g 1 1 - s / n| ≤ 2 / (n + 2) := by
  have hn2 : (0 : ℚ) < n + 2 := by linarith
  have key : bayesianShrinkage s n g 1 1 - s / n = (g * n - 2 * s) / (n * (n + 2)) := by
    rw [bayesianShrinkage]
    field_simp
    ring
  rw [key, abs_div, abs_of_pos (mul_pos hn hn2)]
  rw [div_le_div_iff (mul_pos hn hn2) hn2]
  have habs : |g * n - 2 * s| ≤ 2 * n := by
    rw [abs_le]
    constructor <;> nlinarith
  nlinarith [abs_nonneg (g * n - 2 * s), habs]

/-- C3 (amended): with zero prior trials `bayesian_shrinkage` returns
`alpha * global_rate / (alpha + beta)` — so the per-client smoothed rate at a
client's first event is `global_rate / 2` with the default priors, not
`global_rate` — and convergence does hold: with the default priors the
smoothed rate differs from the empirical rate `s / n` by at most `2 / (n + 2)`
(an `O(1/N)` error). -/
theorem bayesian_smoothing_semantics :
    (∀ g a b : ℚ, bayesianShrinkage 0 0 g a b = a * g / (a + b))
    ∧ (∀ (rows : List Msg) (i : ℕ) (r : Msg), rows.get? i = some r →
        (rows.take i).filter (fun x => x.client == r.client) = [] →
        smoothAt 1 1 rows i = some (globalRate rows / 2))
    ∧ (∀ s n g : ℚ, 0 < n → 0 ≤ s → s ≤ n → 0 ≤ g → g ≤ 1 →
        |bayesianShrinkage s n g 1 1 - s / n| ≤ 2 / (n + 2)) := by
  refine ⟨shrinkage_zero_history, ?_, shrinkage_convergence⟩
  intro rows i r hget hfirst
  rw [smoothAt_first_event 1 1 rows i r hget hfirst]
  norm_num

/-- Witness for `bayesian_smoothing_semantics` at concrete inputs: the dataset
`exC3` at client 2's first event, and the shrinkage bound at
`s = 1, n = 2, g = 1/2`. -/
theorem bayesian_smoothing_semantics_witness :
    smoothAt 1 1 exC3 1 = some (globalRate exC3 / 2)
    ∧ |bayesianShrinkage 1 2 (1 / 2) 1 1 - 1 / 2| ≤ 2 / (2 + 2) :=
  ⟨bayesian_smoothing_semantics.2.1 exC3 1 ⟨2, 60, false⟩ rfl (by decide),
   bayesian_smoothing_semantics.2.2 1 2 (1 / 2) (by norm_num) (by norm_num)
     (by norm_num) (by norm_num) (by norm_num)⟩

theorem sorted_window_before (evs : List Ev) (hs : evs.Pairwise (fun a b => a.t < b.t))
    {i j : ℕ} {e ej : Ev} (hi : evs.get? i = some e) (hj : evs.get? j = some ej)
    (hlt : ej.t < e.t) : j < i := by
  obtain ⟨hilen, hie⟩ := List.get?_eq_some.mp hi
  obtain ⟨hjlen, hje⟩ := List.get?_eq_some.mp hj
  by_contra hcon
  push_neg at hcon
  rcases Nat.lt_or_ge i j with hij | hij
  · have hR := List.pairwise_iff_get.mp hs ⟨i, hilen⟩ ⟨j, hjlen⟩ hij
    rw [hie, hje] at hR
    exact absurd hlt (not_lt.mpr (le_of_lt hR))
  · have hij' : i = j := Nat.le_antisymm hcon hij
    subst hij'
    rw [hi] at hj
    have : e = ej := Option.some.inj hj
    subst this
    exact absurd hlt (lt_irrefl e.t)

theorem rollingPrevMean_first (w : ℤ) (evs : List Ev)
    (hsorted : evs.Pairwise (fun a b => a.t < b.t)) :
    rollingPrevMean w evs 0 = none := by
  cases hget : evs.get? 0 with
  | none => rw [rollingPrevMean, hget]
  | some e =>
    rw [rollingPrevMean, hget]
    dsimp only
    have hfil : (List.range evs.length).filter (inWindow evs e.t w) = [] := by
      rw [List.filter_eq_nil]
      intro j _
      intro htrue
      unfold inWindow at htrue
      cases hgj : evs.get? j with
      | none => rw [hgj] at htrue; exact absurd htrue (by simp)
      | some ej =>
        rw [hgj] at htrue
        simp only [Bool.and_eq_true, decide_eq_true_eq] at htrue
        have : j < 0 := sorted_window_before evs hsorted hget hgj htrue.2
        exact absurd this (Nat.not_lt_zero j)
    have hvals : rollVals w evs e.t = [] := by rw [rollVals, hfil]; rfl
    rw [hvals]
    rfl

/-- Concrete dataset refuting the blanket nullity of claim C6: one client with
a single message; the smoothed rate at that first event is `1/2`, not null. -/
def exC6 : List Msg := [⟨0, 0, true⟩]

theorem exC6_smooth : smoothAt 1 1 exC6 0 = some (1 / 2) := by
  have h := smoothAt_first_event 1 1 exC6 0 ⟨0, 0, true⟩ rfl (by decide)
  rw [h]
  norm_num [globalRate, exC6, mean, qOf]

/-- C6 counterexample: two of the `*_rate_*` columns the claim requires to be
null at the first event of a partition are not null there —
`{metric}_rate_prev_smooth` is `some (1/2)` on the one-message dataset `exC6`
(the shrunk prior), and on the interleaved frame `exMis` the attached
`{metric}_rate_1w` cell at client 1's first event (frame row 2, partition
index 0) is `some 1` because the group-major rolling array is assigned
positionally onto the time-sorted frame. -/
theorem first_event_smooth_not_null :
    (smoothAt 1 1 exC6 0 = some (1 / 2) ∧ ¬ smoothAt 1 1 exC6 0 = none)
    ∧ (attachedRate 10080 exMis 2 = some 1 ∧ ¬ attachedRate 10080 exMis 2 = none) := by
  refine ⟨⟨exC6_smooth, ?_⟩, ⟨exMis_attached_first, ?_⟩⟩
  · rw [exC6_smooth]
    intro h
    exact Option.noConfusion h
  · rw [exMis_attached_first]
    intro h
    exact Option.noConfusion h

/-- C6 (amended): the first event of an entity partition has null `*_prev`
and expanding-mean values, the window mean the groupby-rolling computes for a
partition's first position is null (its window is empty), and — more
generally — any per-entity rolling count/sum/mean window containing zero
qualifying prior events yields null, not zero; but
`{metric}_rate_prev_smooth` is non-null at first events (the shrunk prior
`alpha * global_rate / (alpha + beta)`), and the attached `*_rate_{1w|1m}`
cell at a partition's first event can also be non-null, because the
group-major rolling array is assigned positionally onto the time-sorted
frame. -/
theorem empty_history_nullity :
    (∀ evs : List Ev, prevAt evs 0 = none)
    ∧ (∀ (w : ℤ) (evs : List Ev), evs.Pairwise (fun a b => a.t < b.t) →
        rollingPrevMean w evs 0 = none)
    ∧ (∀ l : List Bool, expandingPrevMean l 0 = none)
    ∧ (∀ (w : ℤ) (evs : List (ℤ × Option ℚ)) (i : ℕ) (e : ℤ × Option ℚ),
        evs.get? i = some e → (∀ x ∈ evs, ¬(e.1 - w ≤ x.1 ∧ x.1 < e.1)) →
        rollingCountAgg w evs i = none ∧ rollingSumAgg w evs i = none
          ∧ rollingMeanAgg w evs i = none)
    ∧ (∀ (alpha beta : ℚ) (rows : List Msg) (i : ℕ) (r : Msg),
        rows.get? i = some r →
        (rows.take i).filter (fun x => x.client == r.client) = [] →
        smoothAt alpha beta rows i = some (alpha * globalRate rows / (alpha + beta))) := by
  refine ⟨fun evs => by simp [prevAt], rollingPrevMean_first,
    fun l => by simp [expandingPrevMean], agg_empty_window, smoothAt_first_event⟩

/-- Witness for `empty_history_nullity` at concrete inputs: the scenario
partition, a one-cell rolling configuration with an empty window, and the
one-message dataset `exC6`. -/
theorem empty_history_nullity_witness :
    rollingPrevMean 10080 scenarioC2 0 = none
    ∧ (rollingCountAgg 1440 [((0 : ℤ), some 1)] 0 = none
      ∧ rollingSumAgg 1440 [((0 : ℤ), some 1)] 0 = none
      ∧ rollingMeanAgg 1440 [((0 : ℤ), some 1)] 0 = none)
    ∧ smoothAt 1 1 exC6 0 = some (1 * globalRate exC6 / (1 + 1)) :=
  ⟨empty_history_nullity.2.1 10080 scenarioC2 (by decide),
   empty_history_nullity.2.2.2.1 1440 [((0 : ℤ), some 1)] 0 ((0 : ℤ), some 1) rfl
     (by decide),
   empty_history_nullity.2.2.2.2 1 1 exC6 0 ⟨0, 0, true⟩ rfl (by decide)⟩

theorem prevAt_no_leakage (evs evs' : List Ev) (i : ℕ)
    (hflag : ∀ j, j < i → (evs.get? j).map (·.flag) = (evs'.get? j).map (·.flag)) :
    prevAt evs i = prevAt evs' i := by
  unfold prevAt
  cases i with
  | zero => simp
  | succ k =>
    simp only [Nat.succ_ne_zero, if_false, Nat.add_sub_cancel]
    exact hflag k (Nat.lt_succ_self k)

theorem rollingPrevMean_no_leakage (w : ℤ) (evs evs' : List Ev) (i : ℕ)
    (ht : evs.map (·.t) = evs'.map (·.t))
    (hsorted : evs.Pairwise (fun a b => a.t < b.t))
    (hflag : ∀ j, j < i → (evs.get? j).map (·.flag) = (evs'.get? j).map (·.flag)) :
    rollingPrevMean w evs i = rollingPrevMean w evs' i := by
  have hlen : evs.length = evs'.length := by
    have := congrArg List.length ht
    simpa using this
  have htj : ∀ j, (evs.get? j).map (·.t) = (evs'.get? j).map (·.t) := by
    intro j
    rw [← List.get?_map, ← List.get?_map, ht]
  cases hgi : evs.get? i with
  | none =>
    have hgi' : evs'.get? i = none := by
      have h := htj i
      rw [hgi] at h
      cases hx : evs'.get? i with
      | none => rfl
      | some x => rw [hx] at h; exact absurd h (by simp)
    rw [rollingPrevMean, rollingPrevMean, hgi, hgi']
  | some e =>
    obtain ⟨e', hgi', het⟩ : ∃ e', evs'.get? i = some e' ∧ e.t = e'.t := by
      have h := htj i
      rw [hgi] at h
      cases hx : evs'.get? i with
      | none => rw [hx] at h; exact absurd h (by simp)
      | some x =>
        rw [hx] at h
        simp only [Option.map_some'] at h
        exact ⟨x, rfl, Option.some.inj h⟩
    have hwin : ∀ j, inWindow evs e.t w j = inWindow evs' e'.t w j := by
      intro j
      unfold inWindow
      have h := htj j
      cases hx : evs.get? j with
      | none =>
        rw [hx] at h
        cases hy : evs'.get? j with
        | none => rfl
        | some y => rw [hy] at h; exact absurd h (by simp)
      | some x =>
        rw [hx] at h
        cases hy : evs'.get? j with
        | none => rw [hy] at h; exact absurd h (by simp)
        | some y =>
          rw [hy] at h
          simp only [Option.map_some'] at h
          dsimp only
          rw [Option.some.inj h, het]
    have hfil : (List.range evs.length).filter (inWindow evs e.t w)
        = (List.range evs'.length).filter (inWindow evs' e'.t w) := by
      rw [hlen]
      exact List.filter_congr (fun j _ => hwin j)
    have hvals : rollVals w evs e.t = rollVals w evs' e'.t := by
      unfold rollVals
      rw [hfil]
      apply List.filterMap_congr
      intro j hj
      have hjw : inWindow evs' e'.t w j = true := List.of_mem_filter hj
      have hjw' : inWindow evs e.t w j = true := by rw [hwin j]; exact hjw
      obtain ⟨ej, hje, hlt⟩ : ∃ ej, evs.get? j = some ej ∧ ej.t < e.t := by
        unfold inWindow at hjw'
        cases hx : evs.get? j with
        | none => rw [hx] at hjw'; exact absurd hjw' (by simp)
        | some x =>
          rw [hx] at hjw'
          simp only [Bool.and_eq_true, decide_eq_true_eq] at hjw'
          exact ⟨x, rfl, hjw'.2⟩
      have hji : j < i := sorted_window_before evs hsorted hgi hje hlt
      rw [prevAt_no_leakage evs evs' j (fun k hk => hflag k (Nat.lt_trans hk hji))]
    rw [rollingPrevMean, rollingPrevMean, hgi, hgi']
    dsimp only
    rw [hvals]

theorem expandingPrevMean_no_leakage (l l' : List Bool) (i : ℕ)
    (h : l.take i = l'.take i) : expandingPrevMean l i = expandingPrevMean l' i := by
  unfold expandingPrevMean
  rw [h]

/-- Concrete datasets refuting claim C1 for the smoothed column: same client,
same two send times; only the outcome flag of the second event (index 1 ≥ 0 in
the partition) differs. -/
def exC1 : List Msg := [⟨1, 0, true⟩, ⟨1, 60, true⟩]

/-- Mutation of `exC1` at partition index 1 (outcome flag flipped). -/
def exC1mut : List Msg := [⟨1, 0, true⟩, ⟨1, 60, false⟩]

theorem exC1_smooth : smoothAt 1 1 exC1 0 = some (1 / 2) := by
  have h := smoothAt_first_event 1 1 exC1 0 ⟨1, 0, true⟩ rfl (by decide)
  rw [h]
  norm_num [globalRate, exC1, mean, qOf]

theorem exC1mut_smooth : smoothAt 1 1 exC1mut 0 = some (1 / 4) := by
  have h := smoothAt_first_event 1 1 exC1mut 0 ⟨1, 0, true⟩ rfl (by decide)
  rw [h]
  norm_num [globalRate, exC1mut, mean, qOf]

/-- C1 counterexample: the invariant fails for two column families.
Mutating the outcome flag of the event at partition index 1 (≥ i = 0) changes
`{metric}_rate_prev_smooth` at event 0 from `1/2` to `1/4` (the smoothing uses
the full-dataset global mean).  And on the interleaved frame `exMis`, the
attached `{metric}_rate_1w` cell at client 1's first event (partition index 0)
changes from `1` to `0` when that partition's index-0 flag is mutated — the
cell carries another row's window mean because the group-major rolling array
is assigned positionally onto the time-sorted frame. -/
theorem smooth_column_leaks_future :
    (smoothAt 1 1 exC1 0 = some (1 / 2)
      ∧ smoothAt 1 1 exC1mut 0 = some (1 / 4)
      ∧ ¬ smoothAt 1 1 exC1 0 = smoothAt 1 1 exC1mut 0)
    ∧ (attachedRate 10080 exMis 2 = some 1
      ∧ attachedRate 10080 exMisMut 2 = some 0
      ∧ ¬ attachedRate 10080 exMis 2 = attachedRate 10080 exMisMut 2) := by
  refine ⟨⟨exC1_smooth, exC1mut_smooth, ?_⟩,
    ⟨exMis_attached_first, exMisMut_attached_first, ?_⟩⟩
  · rw [exC1_smooth, exC1mut_smooth]
    intro h
    have : (1 : ℚ) / 2 = 1 / 4 := Option.some.inj h
    norm_num at this
  · rw [exMis_attached_first, exMisMut_attached_first]
    intro h
    have : (1 : ℚ) = 0 := Option.some.inj h
    norm_num at this

/-- C1 (amended): the strict no-leakage invariant holds for the `*_prev`
lagged column, for the campaign expanding means, and for the window mean the
groupby-rolling computes for partition position i (`rollingPrevMean`, a pure
function of strictly earlier flags on a time-sorted partition); it fails for
the attached `*_rate_{1w|1m}` columns — the group-major rolling array is
assigned positionally onto the time-sorted frame, so the cell attached to a
row can be another row's window mean and can change when flags at partition
indices ≥ i mutate — and for `*_rate_prev_smooth` and the expect-gap columns,
whose computation uses full-dataset and full-history means (both failures in
`smooth_column_leaks_future`). -/
theorem no_leakage_semantics :
    (∀ (evs evs' : List Ev) (i : ℕ),
        (∀ j, j < i → (evs.get? j).map (·.flag) = (evs'.get? j).map (·.flag)) →
        prevAt evs i = prevAt evs' i)
    ∧ (∀ (w : ℤ) (evs evs' : List Ev) (i : ℕ),
        evs.map (·.t) = evs'.map (·.t) →
        evs.Pairwise (fun a b => a.t < b.t) →
        (∀ j, j < i → (evs.get? j).map (·.flag) = (evs'.get? j).map (·.flag)) →
        rollingPrevMean w evs i = rollingPrevMean w evs' i)
    ∧ (∀ (l l' : List Bool) (i : ℕ), l.take i = l'.take i →
        expandingPrevMean l i = expandingPrevMean l' i) :=
  ⟨prevAt_no_leakage, rollingPrevMean_no_leakage, expandingPrevMean_no_leakage⟩

/-- The scenario partition with the outcome flag of its last event (index 2)
flipped, used to witness `no_leakage_semantics`. -/
def scenarioC2alt : List Ev := [⟨0, true⟩, ⟨4320, false⟩, ⟨14400, false⟩]

/-- Witness for `no_leakage_semantics`: mutating the scenario partition at
index 2 leaves the lagged value and rolling rate at event 2 unchanged, and
expanding means agree on lists sharing a prefix. -/
theorem no_leakage_semantics_witness :
    prevAt scenarioC2 2 = prevAt scenarioC2alt 2
    ∧ rollingPrevMean 10080 scenarioC2 2 = rollingPrevMean 10080 scenarioC2alt 2
    ∧ expandingPrevMean [true, false] 1 = expandingPrevMean [true, true] 1 := by
  refine ⟨no_leakage_semantics.1 scenarioC2 scenarioC2alt 2 ?_,
    no_leakage_semantics.2.1 10080 scenarioC2 scenarioC2alt 2 rfl (by decide) ?_,
    no_leakage_semantics.2.2 [true, false] [true, true] 1 rfl⟩
  all_goals
    intro j hj
    interval_cases j <;> rfl

/-- Floor of a timestamp (minutes) to its hourly bucket index — the
`resample('1H')` grid of `add_global_campaign_performance_features`. -/
def bucketOf (t : ℤ) : ℤ := Int.fdiv t 60

/-- One event of the global series: `sent_at` and one engagement metric
(already coerced to 0/1 by `fillna(0).astype(int)`). -/
structure GEv where
  t : ℤ
  flag : Bool
deriving DecidableEq, Repr

/-- Events falling into hourly bucket `h`. -/
def bucketMembers (evs : List GEv) (h : ℤ) : List GEv :=
  evs.filter (fun e => bucketOf e.t == h)

/-- Embeds `resample('1H').mean()`: per-bucket mean of the metric, `NaN` for a
bucket containing no events. -/
def bucketRateRaw (evs : List GEv) (h : ℤ) : Option ℚ :=
  if (bucketMembers evs h).isEmpty then none
  else some (mean ((bucketMembers evs h).map (fun e => qOf e.flag)))

/-- Embeds the `.fillna(0)` after the resample: empty buckets become a defined
zero engagement rate. -/
def bucketRate (evs : List GEv) (h : ℤ) : ℚ := (bucketRateRaw evs h).getD 0

/-- The hourly grid spanned by a list of timestamps: every bucket from the
bucket of the earliest to the bucket of the latest time (the index produced by
`resample`, dense in time). -/
def gridOf (ts : List ℤ) : List ℤ :=
  match ts with
  | [] => []
  | t :: r =>
    (List.range ((bucketOf (r.foldl max t) - bucketOf (r.foldl min t)).toNat + 1)).map
      (fun k => bucketOf (r.foldl min t) + k)

/-- The hourly grid of the global series. -/
def bucketGrid (evs : List GEv) : List ℤ := gridOf (evs.map (·.t))

/-- Embeds `engagement_df[metric].rolling(window, closed='left').mean()` on the
bucket series: at bucket `h` the mean of the (zero-filled) bucket rates over
buckets in `[h - wb, h)` (`wb` in hours), `NaN` when no bucket is in the
window (only the grid's first bucket). -/
def globalRollingRate (wb : ℤ) (evs : List GEv) (h : ℤ) : Option ℚ :=
  if ((bucketGrid evs).filter (fun h2 => decide (h - wb ≤ h2) && decide (h2 < h))).isEmpty
  then none
  else some (mean (((bucketGrid evs).filter
    (fun h2 => decide (h - wb ≤ h2) && decide (h2 < h))).map (bucketRate evs)))

/-- Embeds `pd.merge_asof(..., direction='backward')`: a message at time `t`
receives the rolling value of the most recent bucket whose timestamp
(`h * 60` minutes) is at or before `t`. -/
def joinedGlobalRate (wb : ℤ) (evs : List GEv) (t : ℤ) : Option ℚ :=
  match ((bucketGrid evs).filter (fun h2 => decide (h2 * 60 ≤ t))).getLast? with
  | none => none
  | some h => globalRollingRate wb evs h

theorem bucket_zero_filled (evs : List GEv) (h : ℤ) (hempty : bucketMembers evs h = []) :
    bucketRateRaw evs h = none ∧ bucketRate evs h = 0 := by
  have hraw : bucketRateRaw evs h = none := by
    rw [bucketRateRaw, hempty]
    rfl
  exact ⟨hraw, by rw [bucketRate, hraw]; rfl⟩

theorem joined_zero_on_empty_window (wb : ℤ) (evs : List GEv) (t h : ℤ)
    (hlast : ((bucketGrid evs).filter (fun h2 => decide (h2 * 60 ≤ t))).getLast? = some h)
    (hne : (bucketGrid evs).filter (fun h2 => decide (h - wb ≤ h2) && decide (h2 < h)) ≠ [])
    (hempt : ∀ h2 ∈ (bucketGrid evs).filter (fun h2 => decide (h - wb ≤ h2) && decide (h2 < h)),
      bucketMembers evs h2 = []) :
    joinedGlobalRate wb evs t = some 0 := by
  rw [joinedGlobalRate, hlast]
  dsimp only
  rw [globalRollingRate, if_neg (fun hcon => hne (List.isEmpty_iff.mp hcon))]
  congr 1
  apply mean_of_zeros
  intro x hx
  obtain ⟨h2, hh2, hval⟩ := List.mem_map.mp hx
  rw [← hval]
  exact (bucket_zero_filled evs h2 (hempt h2 hh2)).2

/-- C4: global bucket zero-fill asymmetry.  A bucket with no events has a
defined zero engagement rate (`NaN` before the fill, `0` after), and a message
whose as-of-matched bucket has a non-empty lookback window consisting only of
empty buckets receives the defined value `0`, not null. -/
theorem global_bucket_zero_fill :
    (∀ (evs : List GEv) (h : ℤ), bucketMembers evs h = [] →
        bucketRateRaw evs h = none ∧ bucketRate evs h = 0)
    ∧ (∀ (wb : ℤ) (evs : List GEv) (t h : ℤ),
        ((bucketGrid evs).filter (fun h2 => decide (h2 * 60 ≤ t))).getLast? = some h →
        (bucketGrid evs).filter (fun h2 => decide (h - wb ≤ h2) && decide (h2 < h)) ≠ [] →
        (∀ h2 ∈ (bucketGrid evs).filter (fun h2 => decide (h - wb ≤ h2) && decide (h2 < h)),
          bucketMembers evs h2 = []) →
        joinedGlobalRate wb evs t = some 0) :=
  ⟨bucket_zero_filled, joined_zero_on_empty_window⟩

/-- Concrete global series for the C4 witness: one event at minute 0 (hour 0)
and one at minute 1500 (hour 25); hours 1 .. 24 are empty buckets. -/
def exC4 : List GEv := [⟨0, true⟩, ⟨1500, false⟩]

/-- Witness for `global_bucket_zero_fill`: bucket 3 of `exC4` is empty and
zero-filled, and the message at minute 1500 (bucket 25, 1-day window = hours
1 .. 24, all empty) receives the defined global rate `0`. -/
theorem global_bucket_zero_fill_witness :
    (bucketRateRaw exC4 3 = none ∧ bucketRate exC4 3 = 0)
    ∧ joinedGlobalRate 24 exC4 1500 = some 0 :=
  ⟨global_bucket_zero_fill.1 exC4 3 (by decide),
   global_bucket_zero_fill.2 24 exC4 1500 25 (by decide) (by decide) (by decide)⟩

/-- Null-propagating subtraction of two pandas series cells. -/
def optSub (a b : Option ℚ) : Option ℚ := a.bind (fun x => b.map (fun y => x - y))

/-- Null-propagating division of two pandas series cells. -/
def optDiv (a b : Option ℚ) : Option ℚ := a.bind (fun x => b.map (fun y => x / y))

/-- Embeds `df[global_col].replace(0, np.nan)`: a zero denominator becomes
null. -/
def replaceZero (g : Option ℚ) : Option ℚ :=
  g.bind (fun x => if x = 0 then none else some x)

/-- Embeds the per-cell deviation of `add_client_vs_global_engagement_gap`:
`(client_rate - global_rate) / global_rate.replace(0, nan)`.  The final
`df.replace([inf, -inf], nan)` pass is the identity here: the guarded division
never produces an infinity (ℚ has none, and the zero denominator is already
null). -/
def deviationFeature (c g : Option ℚ) : Option ℚ :=
  optDiv (optSub c g) (replaceZero g)

/-- C5: the deviation zero-guard.  The deviation is null whenever the global
rate is null or zero, null when the client rate is null, and otherwise equals
`(client - global) / global`; no division by zero is ever performed and no
infinity is produced. -/
theorem deviation_zero_guard :
    (∀ c : Option ℚ, deviationFeature c none = none)
    ∧ (∀ c : Option ℚ, deviationFeature c (some 0) = none)
    ∧ (∀ g : Option ℚ, deviationFeature none g = none)
    ∧ (∀ cv gv : ℚ, gv ≠ 0 →
        deviationFeature (some cv) (some gv) = some ((cv - gv) / gv)) := by
  refine ⟨?_, ?_, ?_, ?_⟩
  · intro c; cases c <;> simp [deviationFeature, optSub, optDiv, replaceZero]
  · intro c; cases c <;> simp [deviationFeature, optSub, optDiv, replaceZero]
  · intro g; simp [deviationFeature, optSub, optDiv, replaceZero]
  · intro cv gv hgv; simp [deviationFeature, optSub, optDiv, replaceZero, hgv]

/-- Witness for `deviation_zero_guard` at concrete rates: client rate 3,
global rate 2. -/
theorem deviation_zero_guard_witness :
    deviationFeature (some 3) (some 2) = some ((3 - 2) / 2) :=
  deviation_zero_guard.2.2.2 3 2 (by norm_num)

/-- One row of the spam/health module's view: `sent_at` and the five
deliverability outcome flags read by `create_spam_health_features`. -/
structure SEv where
  t : ℤ
  soft : Bool
  hard : Bool
  blocked : Bool
  unsubscribed : Bool
  complained : Bool
deriving DecidableEq, Repr

/-- Embeds `df_indexed[metric].rolling(window, closed='left').mean()` of
`create_spam_health_features` — company-wide (no `groupby`): the mean of the
selected flag over all events in `[t_i - w, t_i)`, `NaN` when the window is
empty. -/
def companyRollingRate (w : ℤ) (evs : List SEv) (sel : SEv → Bool) (i : ℕ) : Option ℚ :=
  match evs.get? i with
  | none => none
  | some e =>
    if ((evs.filter (fun x => decide (e.t - w ≤ x.t) && decide (x.t < e.t))).map
        (fun x => qOf (sel x))).isEmpty then none
    else some (mean ((evs.filter (fun x => decide (e.t - w ≤ x.t) && decide (x.t < e.t))).map
      (fun x => qOf (sel x))))

/-- Embeds `delivery_rate_{label} = 1 - (soft_rate.fillna(0) +
hard_rate.fillna(0))`. -/
def deliveryRate (w : ℤ) (evs : List SEv) (i : ℕ) : ℚ :=
  1 - ((companyRollingRate w evs (fun x => x.soft) i).getD 0
    + (companyRollingRate w evs (fun x => x.hard) i).getD 0)

/-- Embeds `spam_risk_index_{label} = 0.3*soft + 0.4*hard + 0.2*blocked +
0.05*unsubscribed + 0.05*complained`, each component `fillna(0)`. -/
def spamRiskIndex (w : ℤ) (evs : List SEv) (i : ℕ) : ℚ :=
  3 / 10 * (companyRollingRate w evs (fun x => x.soft) i).getD 0
  + 4 / 10 * (companyRollingRate w evs (fun x => x.hard) i).getD 0
  + 2 / 10 * (companyRollingRate w evs (fun x => x.blocked) i).getD 0
  + 1 / 20 * (companyRollingRate w evs (fun x => x.unsubscribed) i).getD 0
  + 1 / 20 * (companyRollingRate w evs (fun x => x.complained) i).getD 0

theorem qOf_bounds (b : Bool) : 0 ≤ qOf b ∧ qOf b ≤ 1 := by
  cases b <;> norm_num [qOf]

theorem companyRate_getD_bounds (w : ℤ) (evs : List SEv) (sel : SEv → Bool) (i : ℕ) :
    0 ≤ (companyRollingRate w evs sel i).getD 0
    ∧ (companyRollingRate w evs sel i).getD 0 ≤ 1 := by
  rw [companyRollingRate]
  cases hget : evs.get? i with
  | none => norm_num
  | some e =>
    dsimp only
    by_cases hemp : ((evs.filter (fun x => decide (e.t - w ≤ x.t) && decide (x.t < e.t))).map
        (fun x => qOf (sel x))).isEmpty = true
    · rw [if_pos hemp]; norm_num
    · rw [if_neg hemp]
      have hne : (evs.filter (fun x => decide (e.t - w ≤ x.t) && decide (x.t < e.t))).map
          (fun x => qOf (sel x)) ≠ [] := fun hcon => hemp (by rw [hcon]; rfl)
      have hb := mean_bounds _ (fun x hx => by
        obtain ⟨y, _, hy⟩ := List.mem_map.mp hx
        rw [← hy]; exact qOf_bounds (sel y)) hne
      simpa using hb

/-- C10: implicit bounds on the composite health indices.  For every window,
event list and row index, `spam_risk_index` lies in `[0, 1]` (the weights sum
to 1 and each zero-filled component rate lies in `[0, 1]`) and
`delivery_rate` lies in `[-1, 1]`; both composites are total (non-null) even
when every component rate is null. -/
theorem composite_health_bounds :
    ∀ (w : ℤ) (evs : List SEv) (i : ℕ),
      (0 ≤ spamRiskIndex w evs i ∧ spamRiskIndex w evs i ≤ 1)
      ∧ (-1 ≤ deliveryRate w evs i ∧ deliveryRate w evs i ≤ 1) := by
  intro w evs i
  obtain ⟨hs0, hs1⟩ := companyRate_getD_bounds w evs (fun x => x.soft) i
  obtain ⟨hh0, hh1⟩ := companyRate_getD_bounds w evs (fun x => x.hard) i
  obtain ⟨hb0, hb1⟩ := companyRate_getD_bounds w evs (fun x => x.blocked) i
  obtain ⟨hu0, hu1⟩ := companyRate_getD_bounds w evs (fun x => x.unsubscribed) i
  obtain ⟨hc0, hc1⟩ := companyRate_getD_bounds w evs (fun x => x.complained) i
  rw [spamRiskIndex, deliveryRate]
  refine ⟨⟨by linarith, by linarith⟩, by linarith, by linarith⟩

/-- Assembles the spam module's event view from its six input columns. -/
def zipSEv : List ℤ → List Bool → List Bool → List Bool → List Bool → List Bool → List SEv
  | t :: ts, a :: la, b :: lb, c :: lc, d :: ld, e :: le =>
    ⟨t, a, b, c, d, e⟩ :: zipSEv ts la lb lc ld le
  | _, _, _, _, _, _ => []

/-- The five optional outcome columns read by `create_spam_health_features`;
`none` models a column absent from the input frame. -/
structure OptCols where
  soft : Option (List Bool)
  hard : Option (List Bool)
  blocked : Option (List Bool)
  unsubscribed : Option (List Bool)
  complained : Option (List Bool)
deriving DecidableEq

/-- Embeds `create_spam_health_features` of `spam_related_features.py` at the
schema level: the module indexes `df_indexed[metric]` for each of its five
outcome columns without any presence check, so a missing column raises
`KeyError` and aborts the pipeline — modelled as `none`.  When all columns are
present it returns, per row, the pair
`(delivery_rate_1w, spam_risk_index_1w)` (the 1d/1m horizons are identical in
structure). -/
def create_spam_health_features (times : List ℤ) (cols : OptCols) :
    Option (List (ℚ × ℚ)) :=
  match cols.soft, cols.hard, cols.blocked, cols.unsubscribed, cols.complained with
  | some ls, some lh, some lb, some lu, some lc =>
    some ((List.range times.length).map (fun i =>
      (deliveryRate 10080 (zipSEv times ls lh lb lu lc) i,
       spamRiskIndex 10080 (zipSEv times ls lh lb lu lc) i)))
  | _, _, _, _, _ => none

/-- Embeds `df['is_email'] = (df['channel_x'] == 'email').astype(int) if
'channel_x' in df.columns else 0` of `create_rolling_features`: when the
channel column is absent the output column is the scalar zero broadcast over
all rows — zeros, not nulls. -/
def isEmailColumn (channel : Option (List String)) (n : ℕ) : List ℚ :=
  match channel with
  | some ch => ch.map (fun s => if s == "email" then 1 else 0)
  | none => List.replicate n 0

/-- Embeds the column-presence branch of
`add_client_vs_global_engagement_gap`: when both input columns exist the
deviation is computed cell-wise, otherwise the output column is filled with
`np.nan`. -/
def deviationColumns (c g : Option (List (Option ℚ))) (n : ℕ) : List (Option ℚ) :=
  match c, g with
  | some cs, some gs => List.zipWith deviationFeature cs gs
  | _, _ => List.replicate n none

/-- C7 counterexample: with `is_soft_bounced` absent the spam/health module
aborts (`KeyError`, modelled as `none`) instead of continuing with a
null-filled output column, and with `channel_x` absent the `is_email`
indicator is filled with zeros, not nulls. -/
theorem missing_column_aborts :
    create_spam_health_features [0]
      ⟨none, some [false], some [false], some [false], some [false]⟩ = none
    ∧ isEmailColumn none 2 = [0, 0]
    ∧ ¬ isEmailColumn none 2 = [] := by
  refine ⟨rfl, rfl, ?_⟩
  intro h
  exact List.noConfusion h

/-- C7 (amended): graceful degradation on absent optional columns holds for
the guarded components — the deviation module null-fills its outputs when
either input column is missing — but not universally: the spam/health module
raises on any absent outcome column (aborting the pipeline), and an absent
channel column yields `is_email` filled with zeros rather than nulls. -/
theorem schema_gap_semantics :
    (∀ (times : List ℤ) (hard blocked unsubscribed complained : Option (List Bool)),
        create_spam_health_features times ⟨none, hard, blocked, unsubscribed, complained⟩
          = none)
    ∧ (∀ n : ℕ, isEmailColumn none n = List.replicate n 0)
    ∧ (∀ (g : Option (List (Option ℚ))) (n : ℕ), deviationColumns none g n
        = List.replicate n none)
    ∧ (∀ (c : List (Option ℚ)) (n : ℕ), deviationColumns (some c) none n
        = List.replicate n none) := by
  refine ⟨?_, fun n => rfl, ?_, fun c n => rfl⟩
  · intro times hard blocked unsubscribed complained
    cases hard <;> cases blocked <;> cases unsubscribed <;> cases complained <;> rfl
  · intro g n
    cases g <;> rfl

/-- One cleaned input row of the pipeline (`engineer_all_features`): keys,
timestamp (minutes), message type, channel and outcome flags. -/
structure Row where
  message_id : ℕ
  client_id : ℕ
  campaign_id : ℕ
  t : ℤ
  message_type : String
  channel : String
  is_opened : Bool
  is_clicked : Bool
  is_purchased : Bool
  is_soft_bounced : Bool
  is_hard_bounced : Bool
  is_blocked : Bool
  is_unsubscribed : Bool
  is_complained : Bool
deriving DecidableEq, Repr

/-- Feature columns appended by the pipeline stages (one representative
feature per family; the sibling metrics and horizons of the source are
structurally identical).  `none` is an untouched or `NaN` cell. -/
structure Feats where
  hour : Option ℚ := none
  weekday : Option ℚ := none
  is_weekend : Option ℚ := none
  days_since_last_msg : Option ℚ := none
  is_email : Option ℚ := none
  sent_count_1w : Option ℚ := none
  msg_position_in_campaign : Option ℚ := none
  market_avg_msgs_1d : Option ℚ := none
  is_opened_prev : Option ℚ := none
  is_opened_rate_1w : Option ℚ := none
  is_opened_rate_1m : Option ℚ := none
  is_opened_rate_prev_smooth : Option ℚ := none
  is_opened_rate_campaign_per_client : Option ℚ := none
  is_opened_rate_campaign : Option ℚ := none
  is_opened_expect_gap_1w : Option ℚ := none
  is_opened_expect_gap_overall : Option ℚ := none
  global_is_opened_rate_1w : Option ℚ := none
  open_deviation_1w : Option ℚ := none
  is_soft_bounced_rate_1w : Option ℚ := none
  is_hard_bounced_rate_1w : Option ℚ := none
  delivery_rate_1w : Option ℚ := none
  spam_risk_index_1w : Option ℚ := none
deriving DecidableEq, Repr

/-- A row together with its appended feature columns. -/
abbrev FRow := Row × Feats

/-- Applies a per-row feature update that also sees the row's position — the
shape of every column-appending pandas stage. -/
def idxMap (f : ℕ → FRow → FRow) (rs : List FRow) : List FRow :=
  rs.enum.map (fun q => f q.1 q.2)

/-- Embeds `df.sort_values('sent_at')` (performed by the two `merge_asof`
joins of the pipeline). -/
def sortByT (rs : List FRow) : List FRow :=
  List.insertionSort (fun a b => a.1.t ≤ b.1.t) rs

/-- Hour of day derived from a minute timestamp (`df['sent_at'].dt.hour`). -/
def hourOfDay (t : ℤ) : ℤ := (Int.fdiv t 60) % 24

/-- Weekday derived from a minute timestamp (`df['sent_at'].dt.weekday`, with
day 0 of the epoch taken as weekday 0). -/
def weekdayOf (t : ℤ) : ℤ := (Int.fdiv t 1440) % 7

/-- Index of the most recent earlier row of the same client (the element
`groupby('client_id')['sent_at'].diff()` subtracts). -/
def prevSameClientIdx (rs : List FRow) (i : ℕ) : Option ℕ :=
  match rs.get? i with
  | none => none
  | some p =>
    ((List.range i).filter (fun j =>
      match rs.get? j with
      | some a => a.1.client_id == p.1.client_id
      | none => false)).getLast?

/-- Embeds `days_since_last_msg` of `create_temporal_features`: gap in days to
the client's immediately preceding row, null at the client's first row. -/
def daysSinceLastMsg (rs : List FRow) (i : ℕ) : Option ℚ :=
  (prevSameClientIdx rs i).bind (fun j =>
    (rs.get? j).bind (fun a => (rs.get? i).map (fun b => ((b.1.t - a.1.t : ℤ) : ℚ) / 1440)))

/-- Stage 1 — embeds `create_temporal_features`: calendar fields, bucket
indicators and the per-client inter-arrival gap (one indicator of each kind
modelled). -/
def create_temporal_features (rs : List FRow) : List FRow :=
  idxMap (fun i p =>
    (p.1, { p.2 with
      hour := some ((hourOfDay p.1.t : ℚ)),
      weekday := some ((weekdayOf p.1.t : ℚ)),
      is_weekend := some (if 5 ≤ weekdayOf p.1.t then 1 else 0),
      days_since_last_msg := daysSinceLastMsg rs i })) rs

/-- Count of the client's rows in the `closed='left'` window `[t_i - w, t_i)`
(the `rolling(days, closed='left').count()` of `create_rolling_features` on
`message_id`, whose cells are never `NaN`): `NaN` when the window holds zero
observations (offset windows default to `min_periods=1`), the count
otherwise. -/
def clientWindowCount (w : ℤ) (rs : List FRow) (i : ℕ) : Option ℚ :=
  (rs.get? i).bind (fun p =>
    if (rs.filter (fun x => x.1.client_id == p.1.client_id
        && decide (p.1.t - w ≤ x.1.t) && decide (x.1.t < p.1.t))).isEmpty then none
    else some ((rs.filter (fun x => x.1.client_id == p.1.client_id
        && decide (p.1.t - w ≤ x.1.t) && decide (x.1.t < p.1.t))).length : ℚ))

/-- Stage 2 — embeds `create_rolling_features`: the upfront binary channel
indicator, a per-client rolling count and the 1-based position counter within
`(client_id, campaign_id)`. -/
def create_rolling_features (rs : List FRow) : List FRow :=
  idxMap (fun i p =>
    (p.1, { p.2 with
      is_email := some (if p.1.channel == "email" then 1 else 0),
      sent_count_1w := clientWindowCount 10080 rs i,
      msg_position_in_campaign := some
        ((((rs.take i).filter (fun x => x.1.client_id == p.1.client_id
            && x.1.campaign_id == p.1.campaign_id)).length : ℚ) + 1) })) rs

/-- Message count of an hourly bucket (`groupby(pd.Grouper(freq='1H')).agg
(count)`; an empty bucket has count 0). -/
def marketBucketCount (rs : List FRow) (h : ℤ) : ℚ :=
  ((rs.filter (fun x => bucketOf x.1.t == h)).length : ℚ)

/-- Embeds `market_avg_msgs_*` of `create_market_features`: rolling mean of
the hourly bucket counts over `[h - wb, h)` at the message's as-of-matched
bucket. -/
def marketAvgMsgs (wb : ℤ) (rs : List FRow) (t : ℤ) : Option ℚ :=
  match ((gridOf (rs.map (fun x => x.1.t))).filter
      (fun h2 => decide (h2 * 60 ≤ t))).getLast? with
  | none => none
  | some h =>
    if ((gridOf (rs.map (fun x => x.1.t))).filter
        (fun h2 => decide (h - wb ≤ h2) && decide (h2 < h))).isEmpty then none
    else some (mean (((gridOf (rs.map (fun x => x.1.t))).filter
      (fun h2 => decide (h - wb ≤ h2) && decide (h2 < h))).map (marketBucketCount rs)))

/-- Stage 3 — embeds `create_market_features`: sorts by `sent_at`
(`merge_asof` requirement) and appends the market volume trend (the 1-day
horizon modelled; 6h/1w/1m are identical in structure). -/
def create_market_features (rs : List FRow) : List FRow :=
  idxMap (fun _ p => (p.1, { p.2 with market_avg_msgs_1d := marketAvgMsgs 24 (sortByT rs) p.1.t }))
    (sortByT rs)

/-- The explicit message-type filter of `engineer_all_features`:
`df.loc[df['message_type'] == 'bulk']`. -/
def bulkOnly (rs : List FRow) : List FRow :=
  rs.filter (fun p => p.1.message_type == "bulk")

/-- Per-row engagement features of stage 4 — embeds
`create_engagement_features` (the `is_opened` metric modelled; clicked and
purchased are identical in structure): lagged indicator, the positionally
attached 1w/1m rolling-rate cells (`attachedRate` — the group-major
groupby-rolling array assigned onto the frame by `.values`), Bayesian smoothed
rate over the whole frame, the two campaign expanding means and the
expectation gaps (the gaps read the attached rate cells, as the source
subtracts the frame columns). -/
def engagementRowFeats (rs : List FRow) (i : ℕ) (p : FRow) : FRow :=
  (p.1, { p.2 with
    is_opened_prev := (prevAt
      ((rs.filter (fun x => x.1.client_id == p.1.client_id)).map
        (fun x => (⟨x.1.t, x.1.is_opened⟩ : Ev)))
      (((rs.take i).filter (fun x => x.1.client_id == p.1.client_id)).length)).map qOf,
    is_opened_rate_1w := attachedRate 10080
      (rs.map (fun x => (⟨x.1.client_id, x.1.t, x.1.is_opened⟩ : Msg))) i,
    is_opened_rate_1m := attachedRate 43200
      (rs.map (fun x => (⟨x.1.client_id, x.1.t, x.1.is_opened⟩ : Msg))) i,
    is_opened_rate_prev_smooth := smoothAt 1 1
      (rs.map (fun x => (⟨x.1.client_id, x.1.t, x.1.is_opened⟩ : Msg))) i,
    is_opened_rate_campaign_per_client := expandingPrevMean
      ((rs.filter (fun x => x.1.client_id == p.1.client_id
        && x.1.campaign_id == p.1.campaign_id)).map (fun x => x.1.is_opened))
      (((rs.take i).filter (fun x => x.1.client_id == p.1.client_id
        && x.1.campaign_id == p.1.campaign_id)).length),
    is_opened_rate_campaign := expandingPrevMean
      ((rs.filter (fun x => x.1.campaign_id == p.1.campaign_id)).map
        (fun x => x.1.is_opened))
      (((rs.take i).filter (fun x => x.1.campaign_id == p.1.campaign_id)).length),
    is_opened_expect_gap_1w := optSub
      (attachedRate 10080
        (rs.map (fun x => (⟨x.1.client_id, x.1.t, x.1.is_opened⟩ : Msg))) i)
      (smoothAt 1 1 (rs.map (fun x => (⟨x.1.client_id, x.1.t, x.1.is_opened⟩ : Msg))) i),
    is_opened_expect_gap_overall := optSub
      (some (mean ((rs.filter (fun x => x.1.client_id == p.1.client_id)).map
        (fun x => qOf x.1.is_opened))))
      (smoothAt 1 1 (rs.map (fun x => (⟨x.1.client_id, x.1.t, x.1.is_opened⟩ : Msg))) i) })

/-- Stage 4 — embeds `create_engagement_features`. -/
def create_engagement_features (rs : List FRow) : List FRow :=
  idxMap (engagementRowFeats rs) rs

/-- Stage 5 — embeds `add_global_campaign_performance_features`: sorts by
`sent_at` and as-of-joins the hourly-bucket rolling global rate (the
`is_opened` 1w horizon modelled, `7D` over hourly buckets = 168 hours). -/
def add_global_campaign_performance_features (rs : List FRow) : List FRow :=
  idxMap (fun _ p =>
    (p.1, { p.2 with global_is_opened_rate_1w := (joinedGlobalRate 168
      ((sortByT rs).map (fun x => (⟨x.1.t, x.1.is_opened⟩ : GEv))) p.1.t) }))
    (sortByT rs)

/-- Stage 6 — embeds `add_client_vs_global_engagement_gap`: cell-wise guarded
relative deviation of the client rolling rate from the global rolling rate. -/
def add_client_vs_global_engagement_gap (rs : List FRow) : List FRow :=
  idxMap (fun _ p =>
    (p.1, { p.2 with open_deviation_1w :=
      deviationFeature p.2.is_opened_rate_1w p.2.global_is_opened_rate_1w })) rs

/-- Stage 7 — embeds `create_spam_health_features` at its pipeline position
(all five outcome columns present in `Row`): company-wide rolling outcome
rates and the composite indices (the 1w horizon modelled). -/
def create_spam_health_stage (rs : List FRow) : List FRow :=
  idxMap (fun i p =>
    (p.1, { p.2 with
      is_soft_bounced_rate_1w := companyRollingRate 10080
        (rs.map (fun x => (⟨x.1.t, x.1.is_soft_bounced, x.1.is_hard_bounced, x.1.is_blocked,
          x.1.is_unsubscribed, x.1.is_complained⟩ : SEv))) (fun x => x.soft) i,
      is_hard_bounced_rate_1w := companyRollingRate 10080
        (rs.map (fun x => (⟨x.1.t, x.1.is_soft_bounced, x.1.is_hard_bounced, x.1.is_blocked,
          x.1.is_unsubscribed, x.1.is_complained⟩ : SEv))) (fun x => x.hard) i,
      delivery_rate_1w := some (deliveryRate 10080
        (rs.map (fun x => (⟨x.1.t, x.1.is_soft_bounced, x.1.is_hard_bounced, x.1.is_blocked,
          x.1.is_unsubscribed, x.1.is_complained⟩ : SEv))) i),
      spam_risk_index_1w := some (spamRiskIndex 10080
        (rs.map (fun x => (⟨x.1.t, x.1.is_soft_bounced, x.1.is_hard_bounced, x.1.is_blocked,
          x.1.is_unsubscribed, x.1.is_complained⟩ : SEv))) i) })) rs

/-- Embeds `engineer_all_features` of `feature_engineering.py`: the fixed
stage order temporal → rolling → market → bulk filter → engagement → global
performance → deviation → spam/health. -/
def engineer_all_features (rows : List Row) : List FRow :=
  create_spam_health_stage
    (add_client_vs_global_engagement_gap
      (add_global_campaign_performance_features
        (create_engagement_features
          (bulkOnly
            (create_market_features
              (create_rolling_features
                (create_temporal_features (rows.map (fun r => (r, {}))))))))))

theorem idxMap_length (f : ℕ → FRow → FRow) (rs : List FRow) :
    (idxMap f rs).length = rs.length := by
  simp [idxMap, List.enum_length]

theorem idxMap_map_fst (f : ℕ → FRow → FRow) (hf : ∀ i p, (f i p).1 = p.1) (rs : List FRow) :
    (idxMap f rs).map (·.1) = rs.map (·.1) := by
  unfold idxMap
  rw [List.map_map]
  have h1 : ((fun p : FRow => p.1) ∘ fun q : ℕ × FRow => f q.1 q.2)
      = fun q : ℕ × FRow => q.2.1 := funext (fun q => hf q.1 q.2)
  rw [h1]
  have h2 : rs.map (·.1) = (rs.enum.map Prod.snd).map (·.1) := by
    rw [List.enum_map_snd]
  rw [h2, List.map_map]
  rfl

theorem sortByT_perm (rs : List FRow) : (sortByT rs).Perm rs :=
  List.perm_insertionSort _ rs

theorem temporal_map_fst (rs : List FRow) :
    (create_temporal_features rs).map (·.1) = rs.map (·.1) := by
  unfold create_temporal_features
  rw [idxMap_map_fst]
  intro i p
  rfl

theorem rolling_map_fst (rs : List FRow) :
    (create_rolling_features rs).map (·.1) = rs.map (·.1) := by
  unfold create_rolling_features
  rw [idxMap_map_fst]
  intro i p
  rfl

theorem market_map_fst_perm (rs : List FRow) :
    ((create_market_features rs).map (·.1)).Perm (rs.map (·.1)) := by
  unfold create_market_features
  rw [idxMap_map_fst]
  · exact (sortByT_perm rs).map _
  · intro i p
    rfl

theorem globalperf_length (rs : List FRow) :
    (add_global_campaign_performance_features rs).length = rs.length := by
  rw [add_global_campaign_performance_features, idxMap_length]
  exact (sortByT_perm rs).length_eq

theorem engineer_all_features_length (rows : List Row) :
    (engineer_all_features rows).length
      = (rows.filter (fun r => r.message_type == "bulk")).length := by
  unfold engineer_all_features
  rw [create_spam_health_stage, idxMap_length, add_client_vs_global_engagement_gap,
    idxMap_length, globalperf_length, create_engagement_features, idxMap_length]
  rw [bulkOnly]
  rw [show (fun p : FRow => p.1.message_type == "bulk")
      = ((fun r : Row => r.message_type == "bulk") ∘ (fun p : FRow => p.1)) from rfl]
  rw [← List.countP_eq_length_filter, ← List.countP_eq_length_filter]
  rw [← List.countP_map]
  have hperm : ((create_market_features
      (create_rolling_features
        (create_temporal_features (rows.map (fun r => (r, {})))))).map (·.1)).Perm rows := by
    have h1 := market_map_fst_perm
      (create_rolling_features (create_temporal_features (rows.map (fun r => (r, {})))))
    rw [rolling_map_fst, temporal_map_fst, List.map_map] at h1
    have h2 : (rows.map ((fun p : FRow => p.1) ∘ (fun r => (r, ({} : Feats))))) = rows := by
      rw [show ((fun p : FRow => p.1) ∘ fun r : Row => (r, ({} : Feats))) = id from rfl,
        List.map_id]
    rw [h2] at h1
    exact h1
  exact hperm.countP_eq _

/-- Input row with a non-bulk message type, showing the pipeline drops it. -/
def c8row : Row :=
  { message_id := 0, client_id := 0, campaign_id := 0, t := 0,
    message_type := "triggered", channel := "email",
    is_opened := false, is_clicked := false, is_purchased := false,
    is_soft_bounced := false, is_hard_bounced := false, is_blocked := false,
    is_unsubscribed := false, is_complained := false }

/-- C8 counterexample: a one-row input satisfying the
one-row-per-(client, sent_at) invariant whose message type is not `bulk`
yields an empty pipeline output — the output row count differs from the input
row count. -/
theorem bulk_filter_drops_rows :
    engineer_all_features [c8row] = [] ∧ ([c8row] : List Row).length = 1 := by
  constructor
  · rw [← List.length_eq_zero, engineer_all_features_length]
    decide
  · rfl

/-- One raw input row of the cleaning step, with a possibly unparseable
`sent_at`. -/
structure RawRow where
  message_id : ℕ
  client_id : ℕ
  sent_at : Option ℤ
deriving DecidableEq, Repr

/-- The lexicographic sort key order of `prepare_data`'s
`sort_values(['client_id', 'sent_at', 'message_id'])`. -/
def rawLe (a b : RawRow) : Prop :=
  a.client_id < b.client_id
  ∨ (a.client_id = b.client_id ∧ (a.sent_at.getD 0 < b.sent_at.getD 0
      ∨ (a.sent_at.getD 0 = b.sent_at.getD 0 ∧ a.message_id ≤ b.message_id)))

instance : DecidableRel rawLe := fun a b => by unfold rawLe; infer_instance

/-- Embeds `drop_duplicates(subset=['client_id', 'sent_at'], keep='first')`:
keeps each row whose `(client_id, sent_at)` key has not been seen yet. -/
def dedupSeen : List RawRow → List (ℕ × Option ℤ) → List RawRow
  | [], _ => []
  | r :: rest, seen =>
    if (r.client_id, r.sent_at) ∈ seen then dedupSeen rest seen
    else r :: dedupSeen rest ((r.client_id, r.sent_at) :: seen)

/-- Embeds `prepare_data` of `preprocess_for_fe.py`: drop rows with invalid
`sent_at`, sort by `(client_id, sent_at, message_id)`, drop duplicate
`(client_id, sent_at)` pairs keeping the first. -/
def prepare_data (rs : List RawRow) : List RawRow :=
  dedupSeen (List.insertionSort rawLe (rs.filter (fun r => r.sent_at.isSome))) []

theorem dedupSeen_of_nodup :
    ∀ (l : List RawRow) (seen : List (ℕ × Option ℤ)),
      (l.map (fun r => (r.client_id, r.sent_at))).Nodup →
      (∀ r ∈ l, (r.client_id, r.sent_at) ∉ seen) →
      dedupSeen l seen = l := by
  intro l
  induction l with
  | nil => intro seen _ _; rfl
  | cons r rest ih =>
    intro seen hnodup hdisj
    rw [dedupSeen, if_neg (hdisj r (List.mem_cons_self r rest))]
    rw [List.map_cons] at hnodup
    have hn := List.nodup_cons.mp hnodup
    congr 1
    apply ih
    · exact hn.2
    · intro x hx hmem
      rcases List.mem_cons.mp hmem with heq | hseen
      · exact hn.1 (heq ▸ List.mem_map_of_mem (fun r => (r.client_id, r.sent_at)) hx)
      · exact hdisj x (List.mem_cons_of_mem r hx) hseen

theorem prepare_data_length (rs : List RawRow)
    (hnodup : (rs.map (fun r => (r.client_id, r.sent_at))).Nodup)
    (hsome : ∀ r ∈ rs, r.sent_at.isSome) :
    (prepare_data rs).length = rs.length := by
  unfold prepare_data
  rw [List.filter_eq_self.mpr hsome]
  have hperm : (List.insertionSort rawLe rs).Perm rs := List.perm_insertionSort rawLe rs
  have hnodup' : ((List.insertionSort rawLe rs).map
      (fun r => (r.client_id, r.sent_at))).Nodup :=
    ((hperm.map _).nodup_iff).mpr hnodup
  rw [dedupSeen_of_nodup _ [] hnodup' (fun r _ => List.not_mem_nil _)]
  exact hperm.length_eq

/-- C8 (amended): the cleaning step preserves the row count on inputs that
already satisfy the one-row-per-(client_id, sent_at) invariant and have
parseable timestamps, and no pipeline stage removes rows except the explicit
message-type filter: the pipeline's output row count equals the number of
bulk rows of its input (which equals the input row count exactly when every
row is bulk). -/
theorem row_preservation :
    (∀ rs : List RawRow, (rs.map (fun r => (r.client_id, r.sent_at))).Nodup →
        (∀ r ∈ rs, r.sent_at.isSome) → (prepare_data rs).length = rs.length)
    ∧ (∀ rows : List Row, (engineer_all_features rows).length
        = (rows.filter (fun r => r.message_type == "bulk")).length) :=
  ⟨prepare_data_length, engineer_all_features_length⟩

/-- Witness for `row_preservation` at concrete inputs: a deduplicated one-row
cleaning input, and the one-row pipeline input `c8row`. -/
theorem row_preservation_witness :
    (prepare_data [⟨0, 0, some 0⟩]).length = ([⟨0, 0, some 0⟩] : List RawRow).length
    ∧ (engineer_all_features [c8row]).length
        = ([c8row].filter (fun r => r.message_type == "bulk")).length :=
  ⟨row_preservation.1 [⟨0, 0, some 0⟩] (by decide) (by decide),
   row_preservation.2 [c8row]⟩

/-- C9: determinism of the full pipeline.  `engineer_all_features` is a pure
function of its input — the source has no randomness, no time dependence and
no nondeterministic iteration (Python dict order is insertion order, pandas
groupby is sorted) — so two runs on the same cleaned input produce identical
outputs: identical rows, columns, values and row order. -/
theorem pipeline_two_runs_identical :
    ∀ (rows : List Row) (out1 out2 : List FRow),
      out1 = engineer_all_features rows → out2 = engineer_all_features rows →
      out1 = out2 := by
  intro rows out1 out2 h1 h2
  rw [h1, h2]

/-- Witness for `pipeline_two_runs_identical` at a concrete input. -/
theorem pipeline_two_runs_identical_witness :
    engineer_all_features [c8row] = engineer_all_features [c8row] :=
  pipeline_two_runs_identical [c8row] _ _ rfl rfl

end Campaign
